import Mathlib

/-!
Verification of the sist2-python accessor library (`sist2/__init__.py`).

The library is a thin wrapper over a SQLite index file.  We embed it
shallowly: tables become Lean lists of row structures, SQL queries become
pure functions on those lists, caller-supplied `WHERE` clauses become
boolean predicates on rows, and Python exceptions become an explicit
error type on `Except`.  Document ids (the `document` table's primary
key, used as the pagination cursor) are modelled as naturals with the
primary-key ordering.
-/

/-- JSON attribute bag stored in `document.json_data`.  The library reads
the required keys `path`, `name`, `extension` and the optional `tag`
array; other keys are never inspected, so they are not modelled. -/
structure DocJson where
  path : String
  name : String
  extension : String
  tag : List String
deriving DecidableEq, Repr

/-- One row of the `document` table: `id, version, mtime, size, json_data`.
The JSON column is modelled in parsed form (`json.loads`/`json.dumps`
round-trip). -/
structure DocRow where
  id : Nat
  version : Nat
  mtime : Int
  size : Int
  json_data : DocJson
deriving DecidableEq, Repr

/-- The `Sist2Document` namedtuple yielded by `document_iter`:
the raw row fields plus the derived `rel_path` and `path`. -/
structure Sist2Document where
  id : Nat
  version : Nat
  mtime : Int
  size : Int
  json_data : DocJson
  rel_path : String
  path : String
deriving DecidableEq, Repr

/-- `os.path.join(a, b)` for POSIX paths, as used by `_get_next_doc`:
if `b` is absolute it replaces `a`; otherwise a separator is inserted
unless `a` is empty or already ends with one. -/
def osPathJoin (a b : String) : String :=
  if "/".data.isPrefixOf b.data then b
  else if a = "" ∨ "/".data.isSuffixOf a.data then a ++ b
  else a ++ "/" ++ b

/-- `j["name"] + ("." + j["extension"] if j["extension"] else "")`:
the file name with the dot-suffix omitted for an empty extension
(Python string truthiness). -/
def docFilename (j : DocJson) : String :=
  j.name ++ (if j.extension = "" then "" else "." ++ j.extension)

/-- Materialize a `Sist2Document` from a `document` row, deriving
`rel_path = join(j.path, name-with-extension)` and
`path = join(root, j.path, name-with-extension)` exactly as
`_get_next_doc` does. -/
def documentOfRow (root : String) (r : DocRow) : Sist2Document :=
  { id := r.id
    version := r.version
    mtime := r.mtime
    size := r.size
    json_data := r.json_data
    rel_path := osPathJoin r.json_data.path (docFilename r.json_data)
    path := osPathJoin (osPathJoin root r.json_data.path) (docFilename r.json_data) }

/-- The pagination predicate of `_get_next_doc`: the caller's filter `f`
(the `WHERE` clause), conjoined with the keyset condition
`document.id > last_id` once a row has been seen (`last_id = none`
models `self.last_id is None`). -/
def rowMatches (f : DocRow → Bool) (lastId : Option Nat) (r : DocRow) : Bool :=
  f r && match lastId with
    | none => true
    | some l => decide (l < r.id)

/-- `ORDER BY document.id LIMIT 1`: the row with the smallest id among a
list of candidate rows (ids are unique, being the primary key, so the
tie-break is irrelevant). -/
def minById : List DocRow → Option DocRow
  | [] => none
  | r :: rs =>
    match minById rs with
    | none => some r
    | some m => if r.id ≤ m.id then some r else some m

/-- The single-row seek issued by `_get_next_doc`:
`SELECT ... FROM document WHERE <rowMatches> ORDER BY document.id LIMIT 1`. -/
def selectNextRow (table : List DocRow) (f : DocRow → Bool) (lastId : Option Nat) :
    Option DocRow :=
  minById (table.filter (rowMatches f lastId))

/-- `Sist2Index._get_next_doc`: fetch the next matching row past the
cursor and materialize it (including the derived path fields), or
`none` at the end of the scan. -/
def _get_next_doc (root : String) (table : List DocRow) (f : DocRow → Bool)
    (lastId : Option Nat) : Option Sist2Document :=
  (selectNextRow table f lastId).map (documentOfRow root)

/-- The drain loop of `Sist2Index.document_iter`: repeatedly fetch the
next row past the cursor and advance the cursor to its id, until a fetch
comes back empty.  `fuel` bounds the recursion; `document_iter` runs it
with fuel `table.length`, which suffices (each fetched row's id strictly
exceeds the cursor, so no row is fetched twice). -/
def drainRowsAux (table : List DocRow) (f : DocRow → Bool) :
    Option Nat → Nat → List DocRow
  | _, 0 => []
  | last, Nat.succ fuel =>
    match selectNextRow table f last with
    | none => []
    | some r => r :: drainRowsAux table f (some r.id) fuel

/-- `Sist2Index.document_iter(where)`, fully drained: reset the cursor
(`self.last_id = None`), then repeatedly `_get_next_doc` until it
returns nothing, yielding one materialized document per fetched row. -/
def document_iter (root : String) (table : List DocRow) (f : DocRow → Bool) :
    List Sist2Document :=
  (drainRowsAux table f none table.length).map (documentOfRow root)

/-- `Sist2Index.document_count(where)`:
`SELECT COUNT(*) FROM document WHERE <f>`. -/
def document_count (table : List DocRow) (f : DocRow → Bool) : Nat :=
  (table.filter f).length

/-- Specification-side scan, written from the spec's words, to be
compared with `document_iter`: "a single scan of the whole filtered
table ordered by id ascending". -/
def specOrderedScan (table : List DocRow) (f : DocRow → Bool) : List DocRow :=
  List.insertionSort (fun a b => a.id ≤ b.id) (table.filter f)

/-- One row of the derived `tag` table: (document id, tag value). -/
structure TagRow where
  id : Nat
  value : String
deriving DecidableEq, Repr

/-- One row of the `model` table, as written by `register_model`. -/
structure ModelRow where
  id : Nat
  name : String
  url : String
  path : String
  size : Nat
  type : String
deriving DecidableEq, Repr

/-- One row of the `embedding` table, as written by `upsert_embedding`
(`end` may be SQL NULL, hence `Option`; the column is named `endOffset`
here because `end` is a Lean keyword). -/
structure EmbeddingRow where
  id : Nat
  start : Nat
  endOffset : Option Nat
  model_id : Nat
  embedding : List Nat
deriving DecidableEq, Repr

/-- A scan-version record: one row of the `version` table. -/
structure Sist2Version where
  id : Nat
  date : Nat
deriving DecidableEq, Repr

/-- The index descriptor: the single row of the `descriptor` table. -/
structure Sist2Descriptor where
  id : Nat
  version_major : Nat
  version_minor : Nat
  version_patch : Nat
  root : String
  name : String
  rewrite_url : String
  timestamp : Nat
deriving DecidableEq, Repr

/-- The tables of a sist2 index file that the library touches.  The `kv`
table maps a TEXT primary key to a TEXT value (so at most one row per
key; `kv_get` reads the first match). -/
structure DB where
  document : List DocRow
  tag : List TagRow
  kv : List (String × String)
  thumbnail : List (Nat × List Nat)
  model : List ModelRow
  embedding : List EmbeddingRow
  version : List Sist2Version
  descriptor : List Sist2Descriptor
deriving DecidableEq, Repr

/-- `Sist2Index.update_document(doc)`:
`UPDATE document SET mtime=?, size=?, json_data=? WHERE id=?` —
every row whose id equals `doc.id` (at most one, id being the primary
key) gets those three columns overwritten in place; nothing else moves. -/
def update_document (db : DB) (doc : Sist2Document) : DB :=
  { db with
    document := db.document.map fun r =>
      if r.id = doc.id then
        { r with mtime := doc.mtime, size := doc.size, json_data := doc.json_data }
      else r }

/-- The rows produced by
`SELECT document.id, json_each.value FROM document, json_each(document.json_data->>'tag')`:
one `(document id, tag value)` row per element of each document's JSON
`tag` array, in table order. -/
def tagRowsOf : List DocRow → List TagRow
  | [] => []
  | r :: rs => r.json_data.tag.map (fun t => TagRow.mk r.id t) ++ tagRowsOf rs

/-- `Sist2Index.sync_tag_table()`: `DELETE FROM tag` followed by
`REPLACE INTO tag SELECT ...` — the old tag rows are discarded and the
table is rebuilt purely from the `document` table. -/
def sync_tag_table (db : DB) : DB :=
  { db with tag := tagRowsOf db.document }

/-- The value argument of `Sist2Index.set`, typed `str | int` in the
source. -/
inductive KVValue where
  | str (s : String)
  | int (n : Int)
deriving DecidableEq, Repr

/-- SQLite TEXT-affinity storage of a `kv` value: the `value` column is
declared TEXT, so an integer binding is converted to its decimal text
form before being stored; a string is stored as-is. -/
def sqliteTextOfValue : KVValue → String
  | .str s => s
  | .int n => toString n

/-- `Sist2Index.set(key, value)`:
`REPLACE INTO kv (key, value) VALUES (?,?)` — any existing row with
this key is deleted and the freshly converted value is inserted. -/
def kv_set (db : DB) (key : String) (value : KVValue) : DB :=
  { db with
    kv := db.kv.filter (fun p => p.1 != key) ++ [(key, sqliteTextOfValue value)] }

/-- `Sist2Index.get(key, default)`:
`SELECT value from kv WHERE key=?`, returning the fetched value if a
row exists and `default` otherwise. -/
def kv_get (db : DB) (key : String) (default : Option String) : Option String :=
  match db.kv.find? (fun p => p.1 == key) with
  | some p => some p.2
  | none => default

/-- `Sist2Index.commit()`: flushes pending changes to the file.  In the
embedding the `DB` value is the state that becomes durable. -/
def commit (db : DB) : DB := db

/-- A fresh facade opening the same file after a commit sees the
committed state (the only open-time write, `CREATE TABLE IF NOT EXISTS
kv`, is a no-op once the table exists). -/
def reopenIndex (persisted : DB) : DB := persisted

/-- The Python exceptions relevant to opening an index.  `typeError`
models the `TypeError` raised by `Sist2Descriptor(*None)` when
`fetchone()` finds no descriptor row; `operationalError` models
`sqlite3.OperationalError` ("no such table") when a queried table is
absent.  `schemaError` is listed only because the specification names a
`SchemaError`; no such class exists anywhere in the code. -/
inductive PyError where
  | typeError
  | operationalError
  | schemaError
deriving DecidableEq, Repr

/-- `Sist2Index._get_descriptor`: `SELECT ... FROM descriptor` followed
by `Sist2Descriptor(*self.cur.fetchone())`.  An absent table makes the
query itself fail; an empty table makes `fetchone()` return `None`,
whose `*`-unpacking raises `TypeError`; otherwise the first row is
wrapped. -/
def _get_descriptor : Option (List Sist2Descriptor) → Except PyError Sist2Descriptor
  | none => .error .operationalError
  | some [] => .error .typeError
  | some (r :: _) => .ok r

/-- `Sist2Index._get_versions`:
`SELECT id, date FROM version ORDER BY id`, every row wrapped in a
`Sist2Version` — zero rows simply give an empty list. -/
def _get_versions (rows : List Sist2Version) : List Sist2Version :=
  List.insertionSort (fun a b => a.id ≤ b.id) rows

/-- The open-time snapshot held by the facade: descriptor plus version
history, both loaded by `Sist2Index.__init__`. -/
structure Sist2Index where
  descriptor : Sist2Descriptor
  versions : List Sist2Version
deriving DecidableEq, Repr

/-- `Sist2Index.__init__` (after the connection is made): read the
descriptor — propagating its error if it fails — then the version
history. -/
def openIndex (descTable : Option (List Sist2Descriptor))
    (versionRows : List Sist2Version) : Except PyError Sist2Index :=
  match _get_descriptor descTable with
  | .error e => .error e
  | .ok d => .ok ⟨d, _get_versions versionRows⟩

/-- `struct.pack("f", x)` at the byte level: the four bytes of an
IEEE-754 binary32 bit pattern in the platform's (little-endian) byte
order.  A float value is represented by its 32-bit pattern, which is
exact — `struct.pack` produces exactly these bytes. -/
def packBytes (bits : Nat) : List Nat :=
  [bits % 256, bits / 256 % 256, bits / 65536 % 256, bits / 16777216 % 256]

/-- `serialize_float_array(array)`:
`b''.join(struct.pack("f", x) for x in array)` — the concatenation of
the 4-byte encodings, in order. -/
def serialize_float_array : List Nat → List Nat
  | [] => []
  | x :: xs => packBytes x ++ serialize_float_array xs

/-- Decoding a byte string as consecutive 32-bit (little-endian) units,
as the embedding consumer does; a trailing fragment shorter than four
bytes is ignored. -/
def deserialize_float_array : List Nat → List Nat
  | b0 :: b1 :: b2 :: b3 :: rest =>
    (b0 + 256 * b1 + 65536 * b2 + 16777216 * b3) :: deserialize_float_array rest
  | _ => []

/-- The numeric value of an IEEE-754 binary32 bit pattern
(sign bit, 8 exponent bits, 23 fraction bits):
`(-1)^s * (1 + m / 2^23) * 2^(e - 127)` for normal numbers,
`(-1)^s * (m / 2^23) * 2^(-126)` for subnormals (covering zero), and
`none` for exponent 255 (infinities and NaNs, which have no rational
value).  This ties concrete bit patterns to the float values the spec
speaks about. -/
def bitsToRat (bits : Nat) : Option Rat :=
  let s := bits / 2147483648 % 2
  let e := bits / 8388608 % 256
  let m := bits % 8388608
  if e = 255 then none
  else
    let mag : Rat :=
      if e = 0 then (m : Rat) / (2 ^ 149 : Rat)
      else ((8388608 + m : Nat) : Rat) * ((2 : Rat) ^ e) / (2 ^ 150 : Rat)
    some (if s = 1 then -mag else mag)

/-- The observable effect of one Python `print(text)` call: the written
line and whether an explicit flush was requested (`print`'s `flush`
keyword, which defaults to `False` and is not passed by
`print_progress`). -/
structure PrintCall where
  line : String
  flush : Bool
deriving DecidableEq, Repr

/-- `json.dumps({"done": done, "count": count, "waiting": waiting})`
with Python's default separators and key order. -/
def progressJson (done count : Int) (waiting : Bool) : String :=
  "\x7b\"done\": " ++ toString done ++ ", \"count\": " ++ toString count ++
    ", \"waiting\": " ++ (if waiting then "true" else "false") ++ "\x7d"

/-- `print_progress(done, count, waiting)`:
`print(f"$PROGRESS <json>")` — one line on standard output, no explicit
flush requested. -/
def print_progress (done count : Int) (waiting : Bool) : PrintCall :=
  { line := "$PROGRESS " ++ progressJson done count waiting, flush := false }

/-- The zero-argument call `print_progress()`: the source's defaults are
`done=0, count=0, waiting=False`. -/
def print_progress_default : PrintCall :=
  print_progress 0 0 false

/-- A sample attribute bag with a non-empty extension. -/
def sampleBag : DocJson := ⟨"a/b", "file", "txt", ["t1", "t2"]⟩

/-- A sample attribute bag with an empty extension. -/
def sampleBagNoExt : DocJson := ⟨"a/b", "file", "", ["t1"]⟩

/-- A small document table with ids out of storage order. -/
def wTable : List DocRow :=
  [⟨3, 1, 30, 300, sampleBag⟩, ⟨1, 1, 10, 50, sampleBagNoExt⟩, ⟨2, 2, 20, 150, sampleBag⟩]

/-- An index with every table empty. -/
def emptyDB : DB := ⟨[], [], [], [], [], [], [], []⟩

/-- A sample index: the documents of `wTable` plus a stale tag row. -/
def wDB : DB := { emptyDB with document := wTable, tag := [⟨9, "stale"⟩] }

/-- Same documents as `wDB` but different pre-existing tag rows. -/
def wDB2 : DB := { wDB with tag := [⟨7, "other"⟩, ⟨8, "junk"⟩] }

/-- A document whose id (99) matches no row of `wTable`. -/
def wDoc99 : Sist2Document := documentOfRow "/data" ⟨99, 1, 77, 88, sampleBag⟩

theorem minById_ne_none (r : DocRow) (rs : List DocRow) : minById (r :: rs) ≠ none := by
  unfold minById
  cases hm : minById rs with
  | none => simp
  | some m => by_cases hle : r.id ≤ m.id <;> simp [hle]

theorem eq_nil_of_minById_eq_none {l : List DocRow} (h : minById l = none) : l = [] := by
  cases l with
  | nil => rfl
  | cons r rs => exact absurd h (minById_ne_none r rs)

theorem selectNextRow_eq_none_iff (table : List DocRow) (f : DocRow → Bool)
    (last : Option Nat) :
    selectNextRow table f last = none ↔ table.filter (rowMatches f last) = [] := by
  unfold selectNextRow
  cases h : table.filter (rowMatches f last) with
  | nil => simp [minById]
  | cons a as => simp [minById_ne_none a as]

theorem minById_mem : ∀ {l : List DocRow} {r : DocRow}, minById l = some r → r ∈ l := by
  intro l
  induction l with
  | nil => intro r h; simp [minById] at h
  | cons a as ih =>
    intro r h
    unfold minById at h
    cases hm : minById as with
    | none =>
      rw [hm] at h
      exact (Option.some.inj h) ▸ List.mem_cons_self a as
    | some m =>
      rw [hm] at h
      have h2 : (if a.id ≤ m.id then some a else some m) = some r := h
      by_cases hle : a.id ≤ m.id
      · rw [if_pos hle] at h2
        exact (Option.some.inj h2) ▸ List.mem_cons_self a as
      · rw [if_neg hle] at h2
        exact List.mem_cons_of_mem a ((Option.some.inj h2) ▸ ih hm)

theorem minById_min : ∀ {l : List DocRow} {r : DocRow}, minById l = some r →
    ∀ s ∈ l, r.id ≤ s.id := by
  intro l
  induction l with
  | nil => intro r h; simp [minById] at h
  | cons a as ih =>
    intro r h s hs
    unfold minById at h
    cases hm : minById as with
    | none =>
      rw [hm] at h
      have has : as = [] := eq_nil_of_minById_eq_none hm
      subst has
      have hsa : s = a := by simpa using hs
      rw [← Option.some.inj h, hsa]
    | some m =>
      rw [hm] at h
      have h2 : (if a.id ≤ m.id then some a else some m) = some r := h
      by_cases hle : a.id ≤ m.id
      · rw [if_pos hle] at h2
        rw [← Option.some.inj h2]
        rcases List.mem_cons.mp hs with hsa | hsas
        · rw [hsa]
        · exact Nat.le_trans hle (ih hm s hsas)
      · rw [if_neg hle] at h2
        rw [← Option.some.inj h2]
        rcases List.mem_cons.mp hs with hsa | hsas
        · rw [hsa]; omega
        · exact ih hm s hsas

theorem rowMatches_none_eq (f : DocRow → Bool) (r : DocRow) : rowMatches f none r = f r := by
  simp [rowMatches]

theorem rowMatches_some_step (f : DocRow → Bool) (last : Option Nat) (r s : DocRow)
    (hr : rowMatches f last r = true) :
    rowMatches f (some r.id) s = (rowMatches f last s && decide (r.id < s.id)) := by
  cases last with
  | none => simp [rowMatches]
  | some l =>
    have hl : l < r.id := by
      simp only [rowMatches, Bool.and_eq_true, decide_eq_true_eq] at hr
      exact hr.2
    simp only [rowMatches]
    cases hf : f s
    · simp
    · simp only [Bool.true_and]
      by_cases hrs : r.id < s.id
      · have hls : l < s.id := Nat.lt_trans hl hrs
        simp [hrs, hls]
      · simp [hrs]

theorem filter_matching_step (table : List DocRow) (f : DocRow → Bool) (last : Option Nat)
    (r : DocRow) (hr : rowMatches f last r = true) :
    table.filter (rowMatches f (some r.id)) =
      (table.filter (rowMatches f last)).filter (fun s => decide (r.id < s.id)) := by
  rw [List.filter_filter]
  apply List.filter_congr
  intro s _
  rw [rowMatches_some_step f last r s hr, Bool.and_comm]

theorem all_eq_single {α : Type _} {l : List α} (hnd : l.Nodup) {r : α} (hmem : r ∈ l)
    (hall : ∀ s ∈ l, s = r) : l = [r] := by
  cases l with
  | nil => cases hmem
  | cons a as =>
    have ha : a = r := hall a (List.mem_cons_self a as)
    subst ha
    cases as with
    | nil => rfl
    | cons b bs =>
      have hb : b = a := hall b (List.mem_cons_of_mem a (List.mem_cons_self b bs))
      have hnin : a ∉ b :: bs := (List.nodup_cons.mp hnd).1
      have hmm2 : a ∈ b :: bs := by rw [hb]; exact List.mem_cons_self a bs
      exact absurd hmm2 hnin

theorem filter_not_lt_single (table : List DocRow) (f : DocRow → Bool) (last : Option Nat)
    (r : DocRow) (hnd : (table.map DocRow.id).Nodup)
    (hsel : selectNextRow table f last = some r) :
    (table.filter (rowMatches f last)).filter (fun s => !decide (r.id < s.id)) = [r] := by
  have hmem : r ∈ table.filter (rowMatches f last) := minById_mem hsel
  have hmin : ∀ s ∈ table.filter (rowMatches f last), r.id ≤ s.id := minById_min hsel
  have hndT : table.Nodup := List.Nodup.of_map DocRow.id hnd
  have hndS : (table.filter (rowMatches f last)).Nodup := List.Nodup.filter _ hndT
  have hndSmap : ((table.filter (rowMatches f last)).map DocRow.id).Nodup :=
    List.Nodup.sublist (List.Sublist.map DocRow.id (List.filter_sublist table)) hnd
  apply all_eq_single (List.Nodup.filter _ hndS)
  · exact List.mem_filter.mpr ⟨hmem, by simp⟩
  · intro s hs
    have hsS := List.mem_of_mem_filter hs
    have hcond := (List.mem_filter.mp hs).2
    have hsle : s.id ≤ r.id := by
      simp only [Bool.not_eq_true', decide_eq_false_iff_not, Nat.not_lt] at hcond
      exact hcond
    exact List.inj_on_of_nodup_map hndSmap hsS hmem (Nat.le_antisymm hsle (hmin s hsS))

theorem matching_perm_cons (table : List DocRow) (f : DocRow → Bool) (last : Option Nat)
    (r : DocRow) (hnd : (table.map DocRow.id).Nodup)
    (hsel : selectNextRow table f last = some r) :
    (table.filter (rowMatches f last)).Perm
      (r :: (table.filter (rowMatches f last)).filter (fun s => decide (r.id < s.id))) := by
  have h1 : ((table.filter (rowMatches f last)).filter (fun s => decide (r.id < s.id)) ++
      (table.filter (rowMatches f last)).filter (fun s => !decide (r.id < s.id))).Perm
      (table.filter (rowMatches f last)) :=
    List.filter_append_perm _ _
  rw [filter_not_lt_single table f last r hnd hsel] at h1
  exact h1.symm.trans (List.perm_append_singleton r _)

theorem drainRowsAux_spec (table : List DocRow) (f : DocRow → Bool)
    (hnd : (table.map DocRow.id).Nodup) :
    ∀ (fuel : Nat) (last : Option Nat),
      (table.filter (rowMatches f last)).length ≤ fuel →
      (drainRowsAux table f last fuel).Perm (table.filter (rowMatches f last)) ∧
      (drainRowsAux table f last fuel).Pairwise (fun a b => a.id < b.id) := by
  intro fuel
  induction fuel with
  | zero =>
    intro last hlen
    have hS : table.filter (rowMatches f last) = [] :=
      List.eq_nil_of_length_eq_zero (Nat.le_zero.mp hlen)
    rw [hS]
    exact ⟨List.Perm.refl _, List.Pairwise.nil⟩
  | succ fuel ih =>
    intro last hlen
    cases hsel : selectNextRow table f last with
    | none =>
      have hS : table.filter (rowMatches f last) = [] :=
        (selectNextRow_eq_none_iff table f last).mp hsel
      have hd : drainRowsAux table f last (fuel + 1) = [] := by
        unfold drainRowsAux
        rw [hsel]
      rw [hd, hS]
      exact ⟨List.Perm.refl _, List.Pairwise.nil⟩
    | some r =>
      have hrS : r ∈ table.filter (rowMatches f last) := minById_mem hsel
      have hrM : rowMatches f last r = true := (List.mem_filter.mp hrS).2
      have hstep : table.filter (rowMatches f (some r.id)) =
          (table.filter (rowMatches f last)).filter (fun s => decide (r.id < s.id)) :=
        filter_matching_step table f last r hrM
      have hperm := matching_perm_cons table f last r hnd hsel
      have hlen2 : (table.filter (rowMatches f (some r.id))).length ≤ fuel := by
        rw [hstep]
        have hl := hperm.length_eq
        simp only [List.length_cons] at hl
        omega
      obtain ⟨ihp, ihs⟩ := ih (some r.id) hlen2
      have hd : drainRowsAux table f last (fuel + 1) =
          r :: drainRowsAux table f (some r.id) fuel := by
        simp only [drainRowsAux]
        rw [hsel]
      constructor
      · rw [hd]
        refine List.Perm.trans (ihp.cons r) ?_
        rw [hstep]
        exact hperm.symm
      · rw [hd]
        refine List.pairwise_cons.mpr ⟨?_, ihs⟩
        intro s hs
        have hsS : s ∈ table.filter (rowMatches f (some r.id)) := (ihp.mem_iff).mp hs
        have hsM := (List.mem_filter.mp hsS).2
        simp only [rowMatches, Bool.and_eq_true, decide_eq_true_eq] at hsM
        exact hsM.2

instance : IsTrans DocRow (fun a b => a.id ≤ b.id) :=
  ⟨fun _ _ _ => Nat.le_trans⟩

instance : IsTotal DocRow (fun a b => a.id ≤ b.id) :=
  ⟨fun a b => Nat.le_total a.id b.id⟩

instance : IsAntisymm DocRow (fun a b => a.id < b.id) :=
  ⟨fun a _ h1 h2 => absurd (Nat.lt_trans h1 h2) (Nat.lt_irrefl a.id)⟩

/-- Claim C1: fully draining `document_iter` with an empty filter is the
keyset-paginated scan promised by the spec — it equals the single scan of
the whole table ordered by id ascending (`specOrderedScan`), its ids are
strictly increasing, and every document of the table appears exactly once
(no row skipped, no row duplicated).  The hypothesis is the `document`
table's primary-key invariant: ids are unique. -/
theorem document_iter_empty_filter_ordered_scan (root : String) (table : List DocRow)
    (hnd : (table.map DocRow.id).Nodup) :
    document_iter root table (fun _ => true) =
      (specOrderedScan table (fun _ => true)).map (documentOfRow root) ∧
    (document_iter root table (fun _ => true)).Pairwise (fun a b => a.id < b.id) ∧
    ∀ r ∈ table,
      ((document_iter root table (fun _ => true)).map Sist2Document.id).count r.id = 1 := by
  have hfilter : table.filter (rowMatches (fun _ => true) none) = table :=
    (List.filter_congr (fun r _ => rowMatches_none_eq (fun _ => true) r)).trans
      (List.filter_true table)
  obtain ⟨hperm, hpair⟩ :=
    drainRowsAux_spec table (fun _ => true) hnd table.length none (List.length_filter_le _ _)
  rw [hfilter] at hperm
  have hspecperm : (specOrderedScan table (fun _ => true)).Perm table := by
    unfold specOrderedScan
    rw [List.filter_true]
    exact List.perm_insertionSort _ _
  have hspecle : List.Sorted (fun a b : DocRow => a.id ≤ b.id)
      (specOrderedScan table (fun _ => true)) := List.sorted_insertionSort _ _
  have hspecnodup : ((specOrderedScan table (fun _ => true)).map DocRow.id).Nodup :=
    ((hspecperm.map DocRow.id).nodup_iff).mpr hnd
  have hspecne : (specOrderedScan table (fun _ => true)).Pairwise
      (fun a b => a.id ≠ b.id) := List.pairwise_map.mp hspecnodup
  have hspeclt : List.Sorted (fun a b : DocRow => a.id < b.id)
      (specOrderedScan table (fun _ => true)) :=
    (List.Pairwise.and hspecle hspecne).imp (fun hab => Nat.lt_of_le_of_ne hab.1 hab.2)
  have hrows : drainRowsAux table (fun _ => true) none table.length =
      specOrderedScan table (fun _ => true) :=
    List.eq_of_perm_of_sorted (hperm.trans hspecperm.symm) hpair hspeclt
  refine ⟨?_, ?_, ?_⟩
  · unfold document_iter
    rw [hrows]
  · unfold document_iter
    exact List.pairwise_map.mpr hpair
  · intro r hr
    unfold document_iter
    rw [List.map_map]
    have hmapeq : (drainRowsAux table (fun _ => true) none table.length).map
          (Sist2Document.id ∘ documentOfRow root) =
        (drainRowsAux table (fun _ => true) none table.length).map DocRow.id :=
      List.map_congr_left (fun a _ => rfl)
    rw [hmapeq, (hperm.map DocRow.id).count_eq r.id]
    exact List.count_eq_one_of_mem hnd (List.mem_map_of_mem DocRow.id hr)

/-- Witness for claim C1 at the concrete table `wTable`. -/
theorem document_iter_empty_filter_ordered_scan_witness :
    (wTable.map DocRow.id).Nodup ∧
    (document_iter "/data" wTable (fun _ => true) =
        (specOrderedScan wTable (fun _ => true)).map (documentOfRow "/data") ∧
      (document_iter "/data" wTable (fun _ => true)).Pairwise (fun a b => a.id < b.id) ∧
      ∀ r ∈ wTable,
        ((document_iter "/data" wTable (fun _ => true)).map Sist2Document.id).count r.id = 1) :=
  ⟨by decide, document_iter_empty_filter_ordered_scan "/data" wTable (by decide)⟩

/-- Claim C2: for every filter, `document_count` equals the number of
documents produced by fully draining `document_iter` with that filter. -/
theorem document_count_eq_iter_length (root : String) (table : List DocRow)
    (f : DocRow → Bool) (hnd : (table.map DocRow.id).Nodup) :
    document_count table f = (document_iter root table f).length := by
  obtain ⟨hperm, _⟩ :=
    drainRowsAux_spec table f hnd table.length none (List.length_filter_le _ _)
  unfold document_iter document_count
  rw [List.length_map, hperm.length_eq,
    List.filter_congr (fun r _ => rowMatches_none_eq f r)]

/-- Witness for claim C2: a size filter on the concrete table `wTable`. -/
theorem document_count_eq_iter_length_witness :
    (wTable.map DocRow.id).Nodup ∧
    document_count wTable (fun r => decide (100 < r.size)) =
      (document_iter "/data" wTable (fun r => decide (100 < r.size))).length :=
  ⟨by decide, document_count_eq_iter_length "/data" wTable _ (by decide)⟩

/-- Claim C3: every document yielded by `_get_next_doc` comes from a table
row, and its `rel_path` is the bag's `path` joined with `name` plus the
dot-extension suffix (the dot omitted when the extension is empty), while
`path` is the descriptor root joined with the same relative components. -/
theorem yielded_document_paths (root : String) (table : List DocRow) (f : DocRow → Bool)
    (last : Option Nat) (doc : Sist2Document)
    (h : _get_next_doc root table f last = some doc) :
    ∃ r, r ∈ table ∧ doc = documentOfRow root r ∧
      doc.rel_path = osPathJoin r.json_data.path (docFilename r.json_data) ∧
      doc.path = osPathJoin (osPathJoin root r.json_data.path) (docFilename r.json_data) ∧
      docFilename r.json_data = r.json_data.name ++
        (if r.json_data.extension = "" then "" else "." ++ r.json_data.extension) := by
  unfold _get_next_doc at h
  cases hsel : selectNextRow table f last with
  | none => rw [hsel] at h; simp at h
  | some r =>
    rw [hsel] at h
    have hdoc : documentOfRow root r = doc := by simpa using h
    refine ⟨r, List.mem_of_mem_filter (minById_mem hsel), hdoc.symm, ?_, ?_, rfl⟩
    · rw [← hdoc]
      rfl
    · rw [← hdoc]
      rfl

/-- Witness for claim C3: the spec's example bag under root `/data`, plus
the empty-extension variant. -/
theorem yielded_document_paths_witness :
    (_get_next_doc "/data" [⟨7, 1, 0, 0, sampleBag⟩] (fun _ => true) none =
      some (documentOfRow "/data" ⟨7, 1, 0, 0, sampleBag⟩)) ∧
    (∃ r, r ∈ ([⟨7, 1, 0, 0, sampleBag⟩] : List DocRow) ∧
      documentOfRow "/data" ⟨7, 1, 0, 0, sampleBag⟩ = documentOfRow "/data" r ∧
      (documentOfRow "/data" (⟨7, 1, 0, 0, sampleBag⟩ : DocRow)).rel_path =
        osPathJoin r.json_data.path (docFilename r.json_data) ∧
      (documentOfRow "/data" (⟨7, 1, 0, 0, sampleBag⟩ : DocRow)).path =
        osPathJoin (osPathJoin "/data" r.json_data.path) (docFilename r.json_data) ∧
      docFilename r.json_data = r.json_data.name ++
        (if r.json_data.extension = "" then "" else "." ++ r.json_data.extension)) ∧
    (documentOfRow "/data" ⟨7, 1, 0, 0, sampleBag⟩).rel_path = "a/b/file.txt" ∧
    (documentOfRow "/data" ⟨7, 1, 0, 0, sampleBag⟩).path = "/data/a/b/file.txt" ∧
    (documentOfRow "/data" ⟨8, 1, 0, 0, sampleBagNoExt⟩).rel_path = "a/b/file" ∧
    (documentOfRow "/data" ⟨8, 1, 0, 0, sampleBagNoExt⟩).path = "/data/a/b/file" :=
  ⟨by decide,
    yielded_document_paths "/data" [⟨7, 1, 0, 0, sampleBag⟩] (fun _ => true) none
      (documentOfRow "/data" ⟨7, 1, 0, 0, sampleBag⟩) (by decide),
    by decide, by decide, by decide, by decide⟩

/-- Claim C5: `update_document` overwrites exactly the `mtime`, `size` and
`json_data` columns of the rows whose id equals `doc.id` (keeping their id,
version and position), leaves every other row and every other table
unchanged, and is a no-op matching zero rows when the id is absent. -/
theorem update_document_frame (db : DB) (doc : Sist2Document) :
    ((update_document db doc).tag = db.tag ∧
     (update_document db doc).kv = db.kv ∧
     (update_document db doc).thumbnail = db.thumbnail ∧
     (update_document db doc).model = db.model ∧
     (update_document db doc).embedding = db.embedding ∧
     (update_document db doc).version = db.version ∧
     (update_document db doc).descriptor = db.descriptor) ∧
    (∀ i : Nat, (update_document db doc).document[i]? =
      (db.document[i]?).map (fun r =>
        if r.id = doc.id then
          { r with mtime := doc.mtime, size := doc.size, json_data := doc.json_data }
        else r)) ∧
    (∀ i : Nat,
      ((update_document db doc).document[i]?).map DocRow.id =
        (db.document[i]?).map DocRow.id ∧
      ((update_document db doc).document[i]?).map DocRow.version =
        (db.document[i]?).map DocRow.version) ∧
    ((∀ r ∈ db.document, r.id ≠ doc.id) → update_document db doc = db) := by
  have h2 : ∀ i : Nat, (update_document db doc).document[i]? =
      (db.document[i]?).map (fun r =>
        if r.id = doc.id then
          { r with mtime := doc.mtime, size := doc.size, json_data := doc.json_data }
        else r) :=
    fun i => List.getElem?_map _ db.document i
  refine ⟨⟨rfl, rfl, rfl, rfl, rfl, rfl, rfl⟩, h2, ?_, ?_⟩
  · intro i
    rw [h2 i]
    cases hdoc : db.document[i]? with
    | none => exact ⟨rfl, rfl⟩
    | some r =>
      constructor
      · by_cases hid : r.id = doc.id <;> simp [hid]
      · by_cases hid : r.id = doc.id <;> simp [hid]
  · intro hno
    have hmapid : db.document.map (fun r =>
        if r.id = doc.id then
          { r with mtime := doc.mtime, size := doc.size, json_data := doc.json_data }
        else r) = db.document := by
      have hcongr : ∀ r ∈ db.document, (if r.id = doc.id then
          { r with mtime := doc.mtime, size := doc.size, json_data := doc.json_data }
        else r) = id r := fun r hr => by simp [hno r hr]
      rw [List.map_congr_left hcongr, List.map_id]
    unfold update_document
    rw [hmapid]

/-- Witness for claim C5: updating a document whose id matches no row of
`wDB` changes nothing. -/
theorem update_document_frame_witness :
    (∀ r ∈ wDB.document, r.id ≠ wDoc99.id) ∧ update_document wDB wDoc99 = wDB :=
  ⟨by decide, (update_document_frame wDB wDoc99).2.2.2 (by decide)⟩

/-- Claim C6: `sync_tag_table` is idempotent — a second call with unchanged
documents reproduces the same tag table — and that table is exactly one row
per element of each document's `tag` array, independent of (i.e. after
deletion of) whatever tag rows existed before. -/
theorem sync_tag_table_idempotent (db : DB) :
    (sync_tag_table (sync_tag_table db)).tag = (sync_tag_table db).tag ∧
    (sync_tag_table db).tag = tagRowsOf db.document ∧
    (∀ db2 : DB, db2.document = db.document →
      (sync_tag_table db2).tag = (sync_tag_table db).tag) ∧
    (sync_tag_table db).document = db.document := by
  refine ⟨rfl, rfl, ?_, rfl⟩
  intro db2 h
  show tagRowsOf db2.document = tagRowsOf db.document
  rw [h]

/-- Witness for claim C6: `wDB` and `wDB2` share documents but have
different pre-existing tag rows, and syncing gives both the same tag
table. -/
theorem sync_tag_table_idempotent_witness :
    wDB2.document = wDB.document ∧
    (sync_tag_table wDB2).tag = (sync_tag_table wDB).tag ∧
    (sync_tag_table (sync_tag_table wDB)).tag = (sync_tag_table wDB).tag :=
  ⟨rfl, (sync_tag_table_idempotent wDB).2.2.1 wDB2 rfl, (sync_tag_table_idempotent wDB).1⟩

/-- Counterexample for claim C4: an empty descriptor table makes
`_get_descriptor` fail with `TypeError` (from `Sist2Descriptor(*None)`),
and an absent table with `sqlite3.OperationalError` — neither is the
`SchemaError` the claim names, and no `SchemaError` exists in the code. -/
theorem open_empty_descriptor_raises_typeError :
    _get_descriptor (some []) = Except.error PyError.typeError ∧
    _get_descriptor none = Except.error PyError.operationalError ∧
    (Except.error PyError.typeError : Except PyError Sist2Descriptor) ≠
      Except.error PyError.schemaError := by
  refine ⟨rfl, rfl, ?_⟩
  intro h
  exact PyError.noConfusion (Except.error.inj h)

/-- Claim C4 (amended): opening with an empty descriptor table fails with
`TypeError`, with an absent descriptor table fails with
`sqlite3.OperationalError` (not `SchemaError`), and an empty version
history is valid — zero version rows open successfully and yield `[]`. -/
theorem open_errors_and_empty_versions :
    openIndex none [] = Except.error PyError.operationalError ∧
    openIndex (some []) [] = Except.error PyError.typeError ∧
    (∀ d : Sist2Descriptor, ∀ rows : List Sist2Version,
      openIndex (some [d]) rows = Except.ok ⟨d, _get_versions rows⟩) ∧
    (∀ d : Sist2Descriptor, openIndex (some [d]) [] = Except.ok ⟨d, []⟩) ∧
    _get_versions [] = [] :=
  ⟨rfl, rfl, fun _ _ => rfl, fun _ => rfl, rfl⟩

theorem serialize_float_array_length (l : List Nat) :
    (serialize_float_array l).length = 4 * l.length := by
  induction l with
  | nil => rfl
  | cons x xs ih =>
    simp only [serialize_float_array, packBytes, List.length_append, List.length_cons,
      List.length_nil, ih]
    omega

theorem serialize_then_deserialize (l : List Nat) (h : ∀ b ∈ l, b < 4294967296) :
    deserialize_float_array (serialize_float_array l) = l := by
  induction l with
  | nil => rfl
  | cons x xs ih =>
    have hx : x < 4294967296 := h x (List.mem_cons_self x xs)
    have hrest := ih (fun b hb => h b (List.mem_cons_of_mem x hb))
    show deserialize_float_array (packBytes x ++ serialize_float_array xs) = x :: xs
    simp only [packBytes, List.cons_append, List.nil_append, deserialize_float_array,
      List.append_eq]
    rw [hrest]
    have hhead : x % 256 + 256 * (x / 256 % 256) + 65536 * (x / 65536 % 256) +
        16777216 * (x / 16777216 % 256) = x := by omega
    rw [hhead]

/-- Claim C7: `serialize_float_array` emits exactly 4 bytes per element, in
order; decoding with the same byte order is the identity; and on the spec's
example the 12 bytes are the IEEE-754 binary32 little-endian encodings of
1.0 (pattern 0x3F800000), -2.5 (pattern 0xC0200000) and 0.0 (pattern 0),
whose numeric values `bitsToRat` confirms to be 1, -5/2 and 0 exactly. -/
theorem serialize_float_array_spec :
    (∀ values : List Nat, (serialize_float_array values).length = 4 * values.length) ∧
    (∀ values : List Nat, (∀ b ∈ values, b < 4294967296) →
      deserialize_float_array (serialize_float_array values) = values) ∧
    serialize_float_array [1065353216, 3223322624, 0] =
      [0, 0, 128, 63, 0, 0, 32, 192, 0, 0, 0, 0] ∧
    (serialize_float_array [1065353216, 3223322624, 0]).length = 12 ∧
    deserialize_float_array (serialize_float_array [1065353216, 3223322624, 0]) =
      [1065353216, 3223322624, 0] ∧
    bitsToRat 1065353216 = some 1 ∧
    bitsToRat 3223322624 = some (-(5 / 2)) ∧
    bitsToRat 0 = some 0 := by
  refine ⟨serialize_float_array_length, serialize_then_deserialize,
    by decide, by decide, by decide, ?_, ?_, ?_⟩
  · norm_num [bitsToRat]
  · norm_num [bitsToRat]
  · norm_num [bitsToRat]

/-- Witness for claim C7: the round-trip equation applied to the spec's
example bit patterns. -/
theorem serialize_float_array_spec_witness :
    (∀ b ∈ [(1065353216 : Nat), 3223322624, 0], b < 4294967296) ∧
    deserialize_float_array (serialize_float_array [1065353216, 3223322624, 0]) =
      [1065353216, 3223322624, 0] :=
  ⟨by decide, serialize_float_array_spec.2.1 _ (by decide)⟩

theorem kv_find?_set (kv : List (String × String)) (k x : String) :
    List.find? (fun p => p.1 == k) (kv.filter (fun p => p.1 != k) ++ [(k, x)]) =
      some (k, x) := by
  have h1 : List.find? (fun p => p.1 == k) (kv.filter (fun p => p.1 != k)) = none := by
    apply List.find?_eq_none.mpr
    intro p hp
    have h2 := (List.mem_filter.mp hp).2
    simp only [bne_iff_ne, ne_eq] at h2
    simp [h2]
  rw [List.find?_append, h1]
  simp [List.find?]

theorem kv_get_after_set (db : DB) (k : String) (val : KVValue) (d : Option String) :
    kv_get (kv_set db k val) k d = some (sqliteTextOfValue val) := by
  simp only [kv_get, kv_set]
  rw [kv_find?_set]

/-- Claim C8: a `get` miss returns the caller's default with no error, and
after `set(k, v)` with a string value followed by `commit`, a fresh facade
over the same file returns `v` for `get(k, None)`. -/
theorem kv_get_set_roundtrip (db : DB) (k v : String) (d : Option String)
    (hmiss : db.kv.find? (fun p => p.1 == k) = none) :
    kv_get db k d = d ∧
    kv_get (reopenIndex (commit (kv_set db k (KVValue.str v)))) k none = some v := by
  constructor
  · unfold kv_get
    rw [hmiss]
  · exact kv_get_after_set db k (KVValue.str v) none

/-- Witness for claim C8: the spec's miss and round-trip examples on the
empty index. -/
theorem kv_get_set_roundtrip_witness :
    emptyDB.kv.find? (fun p => p.1 == "missing-key") = none ∧
    kv_get emptyDB "missing-key" (some "fallback") = some "fallback" ∧
    kv_get (reopenIndex (commit (kv_set emptyDB "k" (KVValue.str "v")))) "k" none =
      some "v" :=
  ⟨by rfl,
    (kv_get_set_roundtrip emptyDB "missing-key" "v" (some "fallback") (by rfl)).1,
    (kv_get_set_roundtrip emptyDB "k" "v" none (by rfl)).2⟩

/-- Claim C10: storing an integer through `set` yields its decimal text
representation on `get` (the TEXT-affinity `value` column converts the
integer before storing), not the integer itself. -/
theorem kv_set_int_stored_as_text (db : DB) (k : String) (n : Int) :
    kv_get (kv_set db k (KVValue.int n)) k none = some (toString n) ∧
    kv_get (kv_set emptyDB "count" (KVValue.int 42)) "count" none = some "42" :=
  ⟨kv_get_after_set db k (KVValue.int n) none, by decide⟩

/-- Counterexample for claim C9: the `print` call issued by
`print_progress` does not request a flush (Python's `flush` keyword is
left at its default `False`), so the emitted line is not immediately
flushed on each call as the claim states. -/
theorem print_progress_not_flushed : ¬ (print_progress 0 0 false).flush = true := by
  decide

/-- Claim C9 (amended): `print_progress` emits exactly one line — the
literal marker `$PROGRESS` followed by the JSON object with keys `done`,
`count`, `waiting` — returns no value, and the zero-argument call uses the
defaults done=0, count=0, waiting=false; the write does not request an
explicit flush, so immediate flushing is left to the stream's buffering. -/
theorem print_progress_line_format (done count : Int) (waiting : Bool) :
    (print_progress done count waiting).line =
      "$PROGRESS " ++ ("\x7b\"done\": " ++ toString done ++ ", \"count\": " ++
        toString count ++ ", \"waiting\": " ++ (if waiting then "true" else "false") ++
        "\x7d") ∧
    print_progress_default = print_progress 0 0 false ∧
    (print_progress 0 0 false).line =
      "$PROGRESS \x7b\"done\": 0, \"count\": 0, \"waiting\": false\x7d" ∧
    (print_progress done count waiting).flush = false := by
  refine ⟨rfl, rfl, ?_, rfl⟩
  decide
